import Mathlib

/-!
Verification development for the btc-dca-scheduler repository.

This file gives a shallow embedding of the strategy engine
(`src/strategies/base.py`, `src/strategies/cdc.py`, `src/strategies/runtime.py`)
and of the relevant executor/handler code in `src/main.py` and
`src/exchanges/base.py`, followed by theorems settling the specification
claims against the embedded code.

Modelling conventions:
* Python floats are embedded as exact rationals (`ℚ`); none of the claims
  depend on binary floating-point rounding.
* Each `uuid`-based request id is modelled as an explicit `String` parameter
  of the decision functions (the only nondeterministic input they consume).
* Exceptions are modelled with `Except String`; database state is passed
  explicitly; exchange adapters, order-book guards and fills are supplied as
  explicit environment records.
-/

/-- Action kinds emitted by a strategy tick (`StrategyActionType` in
`src/strategies/base.py`). -/
inductive StrategyActionType
  | DCA_BUY
  | RESERVE_MOVE
  | ROTATION_FLIP
  | HEALTH_UPDATE
  | RESERVE_BUY
  | HALF_SELL
  | SYNC
  | OTHER
deriving DecidableEq, Repr

/-- Python's `Enum.name` for `StrategyActionType` members. -/
def StrategyActionType.name : StrategyActionType → String
  | .DCA_BUY => "DCA_BUY"
  | .RESERVE_MOVE => "RESERVE_MOVE"
  | .ROTATION_FLIP => "ROTATION_FLIP"
  | .HEALTH_UPDATE => "HEALTH_UPDATE"
  | .RESERVE_BUY => "RESERVE_BUY"
  | .HALF_SELL => "HALF_SELL"
  | .SYNC => "SYNC"
  | .OTHER => "OTHER"

/-- Result status after executing an action (`ActionStatus` in
`src/strategies/base.py`). -/
inductive ActionStatus
  | SUCCESS
  | SKIPPED
  | FAILED
deriving DecidableEq, Repr

/-- A value passed as one component to `dedupe_key_for`.  The strategy code
passes strings, ints, rounded floats, `None`, and `datetime.date` objects
(the latter hit the `repr(part)` fallback; we carry their repr string). -/
inductive KeyPart
  | s (v : String)
  | i (v : Int)
  | q (v : ℚ)
  | nullv
  | dateRepr (v : String)
deriving DecidableEq, Repr

/-- Normalisation of one key component, mirroring the loop body of
`dedupe_key_for` in `src/strategies/base.py`.  `str()` of a float is
modelled by the canonical rational rendering; no claim depends on the
concrete text, only on its being a deterministic function of the value. -/
def KeyPart.normalize : KeyPart → String
  | .s v => v
  | .i v => toString v
  | .q v => toString v
  | .nullv => "null"
  | .dateRepr v => v

/-- Derive a deterministic dedupe key from ordered components
(`dedupe_key_for` in `src/strategies/base.py`). -/
def dedupe_key_for (parts : List KeyPart) : String :=
  String.intercalate "|" (parts.map KeyPart.normalize)

/-- Python's `round(x, 8)` used when floats enter dedupe keys. -/
def round8 (q : ℚ) : ℚ :=
  (round (q * 100000000) : ℚ) / 100000000

/-- Python `str.lower()` (the embedded strings are ASCII). -/
def pyLower (s : String) : String := String.mk (s.data.map Char.toLower)

/-- Python `str.strip()`: drop whitespace from both ends. -/
def pyStrip (s : String) : String :=
  String.mk (((s.data.dropWhile Char.isWhitespace).reverse.dropWhile
    Char.isWhitespace).reverse)

/-- Helper for `pySplitChar`: accumulate the current field in reverse. -/
def splitCharAux (sep : Char) : List Char → List Char → List String
  | [], acc => [String.mk acc.reverse]
  | c :: rest, acc =>
    if c = sep then String.mk acc.reverse :: splitCharAux sep rest []
    else splitCharAux sep rest (c :: acc)

/-- Python `str.split(sep)` for a one-character separator. -/
def pySplitChar (sep : Char) (s : String) : List String :=
  splitCharAux sep s.data []

/-- Python `str.split(",")`. -/
def pySplitComma (s : String) : List String := pySplitChar ',' s

/-- Decimal-digit parse of an already digit-checked field. -/
def pyDigitsToNat (s : String) : Nat :=
  s.data.foldl (fun n c => n * 10 + (c.toNat - 48)) 0

/-- Minimal stand-in for an aware `datetime`: the decision code only consumes
the repr of its UTC calendar date (`now.astimezone(timezone.utc).date()`). -/
structure PyDatetime where
  utcDateRepr : String
deriving DecidableEq, Repr

/-- Payload mapping attached to a `StrategyAction`; the embedded fields are
exactly the dictionary entries the strategy code writes. -/
structure ActionPayload where
  amount : Option ℚ := Option.none
  schedule_id : Option Int := Option.none
  cdc_status : Option String := Option.none
  mode : Option String := Option.none
  exchange : Option String := Option.none
  percent : Option Int := Option.none
deriving DecidableEq, Repr

/-- Metadata mapping attached to a `StrategyAction`. -/
structure ActionMetadata where
  reserve_direction : Option String := Option.none
  reserve_channel : Option String := Option.none
  exchange : Option String := Option.none
  cdc_enabled : Option Bool := Option.none
deriving DecidableEq, Repr

/-- Idempotent action produced by a strategy decision (`StrategyAction` in
`src/strategies/base.py`). -/
structure StrategyAction where
  action_type : StrategyActionType
  request_id : String
  dedupe_key : String
  payload : ActionPayload := {}
  metadata : ActionMetadata := {}
deriving DecidableEq, Repr

/-- Notes mapping of a `StrategyDecision` as written by the CDC strategy. -/
structure DecisionNotes where
  mode : Option String := Option.none
  cdc_status : Option String := Option.none
  transition : Bool := false
deriving DecidableEq, Repr

/-- Output from a strategy tick call (`StrategyDecision`). -/
structure StrategyDecision where
  issued_at : PyDatetime
  actions : List StrategyAction
  notes : DecisionNotes := {}
deriving DecidableEq, Repr

/-- Runtime context for a tick (`StrategyContext`); the decision logic reads
only these three fields, so the config/cursor/metadata maps are elided. -/
structure StrategyContext where
  now : PyDatetime
  request_id : String
  dedupe_key : String
deriving DecidableEq, Repr

/-- Outcome returned after attempting an action (`ActionResult`).  The
free-form `data` map is modelled by `resultPayload` carrying the executor's
result dictionary when a handler supplies one. -/
structure ExecResult where
  executed : Bool := false
  skipped : Bool := false
  reason : Option String := Option.none
  errorMsg : Option String := Option.none
deriving DecidableEq, Repr

/-- Outcome record returned by the orchestrator for one action. -/
structure ActionResult where
  request_id : String
  dedupe_key : String
  status : ActionStatus
  detail : Option String := Option.none
  resultPayload : Option ExecResult := Option.none
deriving DecidableEq, Repr

/-- Parameters of a weekly DCA decision (`WeeklyDcaDecisionInput` in
`src/strategies/cdc.py`). -/
structure WeeklyDcaDecisionInput where
  now : PyDatetime
  schedule_id : Int
  mode : String
  amount : ℚ
  cdc_status : String
  cdc_enabled : Bool
  binance_amount : ℚ := 0
  okx_amount : ℚ := 0
deriving DecidableEq, Repr

/-- Parameters of a CDC transition decision (`TransitionDecisionInput`). -/
structure TransitionDecisionInput where
  now : PyDatetime
  previous_status : Option String
  current_status : String
  red_epoch_active : Bool
  half_sell_policy : String
  sell_percent_binance : Int
  sell_percent_okx : Int
  sell_percent_global : Int
  active_exchange : String
  reserve_usdt : ℚ
  reserve_binance_usdt : ℚ
  reserve_okx_usdt : ℚ
deriving DecidableEq, Repr

/-- Per-action kind selection shared by `_global_dca_action` and
`_exchange_dca_action`: disabled strategies always buy, enabled ones buy on
an "up" signal and divert to reserve otherwise. -/
def cdcWeeklyKind (cdc_enabled : Bool) (cdc_status : String) : StrategyActionType :=
  if ¬ cdc_enabled then StrategyActionType.DCA_BUY
  else if cdc_status = "up" then StrategyActionType.DCA_BUY
  else StrategyActionType.RESERVE_MOVE

/-- Embedding of `CdcDcaStrategy._global_dca_action`. -/
def CdcDcaStrategy.global_dca_action (context : StrategyContext)
    (data : WeeklyDcaDecisionInput) : StrategyAction :=
  let action_kind := cdcWeeklyKind data.cdc_enabled data.cdc_status
  let dedupe := dedupe_key_for
    [KeyPart.s context.dedupe_key, KeyPart.s "global", KeyPart.s action_kind.name]
  let payload : ActionPayload :=
    { amount := some data.amount
      schedule_id := some data.schedule_id
      cdc_status := some data.cdc_status
      mode := some data.mode }
  let metadata : ActionMetadata :=
    if action_kind = StrategyActionType.RESERVE_MOVE then
      { cdc_enabled := some data.cdc_enabled
        reserve_direction := some "increase"
        reserve_channel := some "global" }
    else
      { cdc_enabled := some data.cdc_enabled
        exchange := some "active" }
  { action_type := action_kind
    request_id := context.request_id
    dedupe_key := dedupe
    payload := payload
    metadata := metadata }

/-- Embedding of `CdcDcaStrategy._exchange_dca_action`. -/
def CdcDcaStrategy.exchange_dca_action (context : StrategyContext)
    (exchange : String) (amount : ℚ) (cdc_status : String)
    (cdc_enabled : Bool) : StrategyAction :=
  let action_kind := cdcWeeklyKind cdc_enabled cdc_status
  let dedupe := dedupe_key_for
    [KeyPart.s context.dedupe_key, KeyPart.s exchange,
     KeyPart.s action_kind.name, KeyPart.q (round8 amount)]
  let payload : ActionPayload :=
    { exchange := some exchange
      amount := some amount
      cdc_status := some cdc_status }
  let metadata : ActionMetadata :=
    { reserve_direction :=
        some (if action_kind = StrategyActionType.RESERVE_MOVE then "increase" else "decrease") }
  { action_type := action_kind
    request_id := context.request_id
    dedupe_key := dedupe
    payload := payload
    metadata := metadata }

/-- Embedding of `CdcDcaStrategy.decide_weekly_dca`.  The uuid-based request
id produced by `make_request_id("cdc-weekly")` is supplied as the explicit
parameter `reqId`. -/
def CdcDcaStrategy.decide_weekly_dca (reqId : String)
    (data : WeeklyDcaDecisionInput) : StrategyDecision :=
  let base_context : StrategyContext :=
    { now := data.now
      request_id := reqId
      dedupe_key := dedupe_key_for
        [KeyPart.s "weekly-dca", KeyPart.i data.schedule_id,
         KeyPart.dateRepr data.now.utcDateRepr] }
  let actions : List StrategyAction :=
    if data.mode = "global" then
      [CdcDcaStrategy.global_dca_action base_context data]
    else
      (if (data.mode = "binance" ∨ data.mode = "both") ∧ data.binance_amount > 0 then
        [CdcDcaStrategy.exchange_dca_action base_context "binance"
          data.binance_amount data.cdc_status data.cdc_enabled]
      else []) ++
      (if (data.mode = "okx" ∨ data.mode = "both") ∧ data.okx_amount > 0 then
        [CdcDcaStrategy.exchange_dca_action base_context "okx"
          data.okx_amount data.cdc_status data.cdc_enabled]
      else [])
  { issued_at := data.now
    actions := actions
    notes := { mode := some data.mode, cdc_status := some data.cdc_status } }

/-- Sell percentage for one exchange (`pct_for` closure inside
`CdcDcaStrategy._half_sell_actions`). -/
def CdcDcaStrategy.pct_for (data : TransitionDecisionInput) (exchange : String) : Int :=
  let ex := pyLower exchange
  if ex = "okx" then max data.sell_percent_okx 0
  else if ex = "binance" then max data.sell_percent_binance 0
  else max data.sell_percent_global 0

/-- Loop body of `_half_sell_actions`: walk the candidate exchanges, skip
duplicates and non-positive percentages, and emit one HALF_SELL per
remaining exchange. -/
def CdcDcaStrategy.half_sell_loop (context : StrategyContext)
    (data : TransitionDecisionInput) :
    List String → List String → List StrategyAction
  | _, [] => []
  | seen, ex :: rest =>
    let ex_low := pyLower ex
    if ex_low ∈ seen then CdcDcaStrategy.half_sell_loop context data seen rest
    else
      let seen2 := ex_low :: seen
      let pct := CdcDcaStrategy.pct_for data ex_low
      if pct ≤ 0 then CdcDcaStrategy.half_sell_loop context data seen2 rest
      else
        { action_type := StrategyActionType.HALF_SELL
          request_id := context.request_id
          dedupe_key := dedupe_key_for
            [KeyPart.s context.dedupe_key, KeyPart.s "half_sell",
             KeyPart.s ex_low, KeyPart.i pct]
          payload := { exchange := some ex_low, percent := some pct } }
        :: CdcDcaStrategy.half_sell_loop context data seen2 rest

/-- Embedding of `CdcDcaStrategy._half_sell_actions`. -/
def CdcDcaStrategy.half_sell_actions (context : StrategyContext)
    (data : TransitionDecisionInput) : List StrategyAction :=
  let policy := pyLower (if data.half_sell_policy = "" then "auto_proportional"
                 else data.half_sell_policy)
  let exchanges : List String :=
    if policy = "binance_only" then ["binance"]
    else if policy = "okx_only" then ["okx"]
    else
      let base :=
        (if CdcDcaStrategy.pct_for data "binance" > 0 then ["binance"] else []) ++
        (if CdcDcaStrategy.pct_for data "okx" > 0 then ["okx"] else [])
      if base = [] then
        [pyLower (if data.active_exchange = "" then "binance" else data.active_exchange)]
      else base
  CdcDcaStrategy.half_sell_loop context data [] exchanges

/-- Embedding of `CdcDcaStrategy._reserve_buy_actions`: one global
RESERVE_BUY followed unconditionally by one RESERVE_BUY for binance and one
for okx (amounts clamped at 0). -/
def CdcDcaStrategy.reserve_buy_actions (context : StrategyContext)
    (data : TransitionDecisionInput) : List StrategyAction :=
  [{ action_type := StrategyActionType.RESERVE_BUY
     request_id := context.request_id
     dedupe_key := dedupe_key_for
       [KeyPart.s context.dedupe_key, KeyPart.s "reserve_buy", KeyPart.s "global"]
     payload := { mode := some "global", amount := some (max data.reserve_usdt 0) } },
   { action_type := StrategyActionType.RESERVE_BUY
     request_id := context.request_id
     dedupe_key := dedupe_key_for
       [KeyPart.s context.dedupe_key, KeyPart.s "reserve_buy", KeyPart.s "binance",
        KeyPart.q (round8 data.reserve_binance_usdt)]
     payload := { mode := some "exchange", exchange := some "binance",
                  amount := some (max data.reserve_binance_usdt 0) } },
   { action_type := StrategyActionType.RESERVE_BUY
     request_id := context.request_id
     dedupe_key := dedupe_key_for
       [KeyPart.s context.dedupe_key, KeyPart.s "reserve_buy", KeyPart.s "okx",
        KeyPart.q (round8 data.reserve_okx_usdt)]
     payload := { mode := some "exchange", exchange := some "okx",
                  amount := some (max data.reserve_okx_usdt 0) } }]

/-- Key component for the possibly-`None` previous status. -/
def optStatusPart : Option String → KeyPart
  | Option.none => KeyPart.nullv
  | some v => KeyPart.s v

/-- Embedding of `CdcDcaStrategy.decide_transition`; `reqId` stands for the
uuid-based `make_request_id("cdc-transition")` value. -/
def CdcDcaStrategy.decide_transition (reqId : String)
    (data : TransitionDecisionInput) : StrategyDecision :=
  if data.previous_status = some data.current_status then
    { issued_at := data.now, actions := [], notes := {} }
  else
    let context : StrategyContext :=
      { now := data.now
        request_id := reqId
        dedupe_key := dedupe_key_for
          [KeyPart.s "cdc-transition", optStatusPart data.previous_status,
           KeyPart.s data.current_status, KeyPart.dateRepr data.now.utcDateRepr] }
    let actions : List StrategyAction :=
      if data.current_status = "down" then
        if ¬ data.red_epoch_active then CdcDcaStrategy.half_sell_actions context data
        else []
      else if data.current_status = "up" then
        CdcDcaStrategy.reserve_buy_actions context data
      else []
    { issued_at := data.now, actions := actions, notes := { transition := true } }

/-- Spec-side restatement of the weekly-DCA rule (from the spec's words, for
comparison with the code): if the strategy is disabled, always DCA_BUY; else
DCA_BUY when the signal is "up" and RESERVE_MOVE otherwise. -/
def specWeeklyKind (cdc_enabled : Bool) (cdc_status : String) : StrategyActionType :=
  if cdc_enabled = false then StrategyActionType.DCA_BUY
  else if cdc_status = "up" then StrategyActionType.DCA_BUY
  else StrategyActionType.RESERVE_MOVE

theorem cdcWeeklyKind_eq_spec (e : Bool) (s : String) :
    cdcWeeklyKind e s = specWeeklyKind e s := by
  cases e <;> simp [cdcWeeklyKind, specWeeklyKind]

/-- Embedding of `ExchangeAdapter.floor_to_step` (src/exchanges/base.py):
`if not step or step <= 0: return value` then floor-align. -/
def ExchangeAdapter.floor_to_step (value step : ℚ) : ℚ :=
  if step = 0 ∨ step ≤ 0 then value
  else (Int.floor (value / step) : ℚ) * step

/-- Python `Decimal.to_integral_value(ROUND_DOWN)`: truncation toward zero. -/
def truncTowardZero (q : ℚ) : Int :=
  if 0 ≤ q then Int.floor q else Int.ceil q

/-- Embedding of `adjust_qty_to_step` (src/main.py 1620). -/
def adjust_qty_to_step (qty step : ℚ) : ℚ :=
  if step ≤ 0 then qty
  else (truncTowardZero (qty / step) : ℚ) * step

/-- Pure model of an async action handler; `.error` models an exception
raised inside the handler. -/
abbrev ActionHandler := StrategyAction → Except String ActionResult

/-- The try/except wrapping the handler call inside
`StrategyOrchestrator.execute`: an exception becomes FAILED(text). -/
def resolve_handler (h : ActionHandler) (a : StrategyAction) : ActionResult :=
  match h a with
  | Except.ok r => r
  | Except.error e =>
    { request_id := a.request_id, dedupe_key := a.dedupe_key,
      status := ActionStatus.FAILED, detail := some e }

/-- Result object built for an action skipped by the dedupe cache. -/
def duplicate_result (a : StrategyAction) : ActionResult :=
  { request_id := a.request_id, dedupe_key := a.dedupe_key,
    status := ActionStatus.SKIPPED, detail := some "duplicate_action" }

/-- Result object built when no handler is registered for the action kind. -/
def no_handler_result (a : StrategyAction) : ActionResult :=
  { request_id := a.request_id, dedupe_key := a.dedupe_key,
    status := ActionStatus.FAILED, detail := some "no_handler" }

/-- Embedding of `StrategyOrchestrator.execute` (src/strategies/runtime.py).
`handlers` models the combined `handlers.get(kind) or handlers.get(kind.name)`
lookup and `cache` the in-memory `_dedupe_cache` set.  Besides the results
and the final cache, the model returns the trace of actions on which a
handler was actually invoked, so that "without invoking a handler" is an
expressible property. -/
def StrategyOrchestrator.execute
    (handlers : StrategyActionType → Option ActionHandler) :
    List String → List StrategyAction →
      List ActionResult × List String × List StrategyAction
  | cache, [] => ([], cache, [])
  | cache, a :: rest =>
    if a.dedupe_key ∈ cache then
      let tail := StrategyOrchestrator.execute handlers cache rest
      (duplicate_result a :: tail.1, tail.2)
    else
      match handlers a.action_type with
      | Option.none =>
        let tail := StrategyOrchestrator.execute handlers cache rest
        (no_handler_result a :: tail.1, tail.2)
      | some h =>
        let result := resolve_handler h a
        let cache2 := if result.status = ActionStatus.SUCCESS
          then a.dedupe_key :: cache else cache
        let tail := StrategyOrchestrator.execute handlers cache2 rest
        (result :: tail.1, tail.2.1, a :: tail.2.2)

/-- Orchestrator lifetime: successive decision batches executed against the
same `_dedupe_cache`.  Returns the final cache and the concatenated
handler-invocation trace. -/
def StrategyOrchestrator.run
    (handlers : StrategyActionType → Option ActionHandler) :
    List String → List (List StrategyAction) →
      List String × List StrategyAction
  | cache, [] => (cache, [])
  | cache, batch :: more =>
    let step1 := StrategyOrchestrator.execute handlers cache batch
    let next := StrategyOrchestrator.run handlers step1.2.1 more
    (next.1, step1.2.2 ++ next.2)

/-- The result the orchestrator obtains if it looks up and invokes the
handler for `a` (including exception conversion); `none` when no handler is
registered. -/
def handler_outcome (handlers : StrategyActionType → Option ActionHandler)
    (a : StrategyAction) : Option ActionResult :=
  match handlers a.action_type with
  | Option.none => Option.none
  | some h => some (resolve_handler h a)

/-- Environment consumed by `_execute_half_sell_for_exchange`: adapter
balance, symbol filters, the boolean verdicts of the guard evaluations
(each guard's default machine reason is used for its skip), and the fill
returned by `place_market_sell_qty`. -/
structure HalfSellEnv where
  btc_free : ℚ
  stepSize : ℚ
  minQty : ℚ
  minNotional : ℚ
  price : ℚ
  depth_ok : Bool
  twap_ok : Bool
  cap_ok : Bool
  liquidity_ok : Bool
  fill_qty : ℚ
  fill_quote : ℚ
deriving DecidableEq, Repr

/-- Embedding of `_execute_half_sell_for_exchange` (src/main.py 1632):
returns the result dictionary and whether `place_market_sell_qty` was
called.  The trailing ValueError on an unfilled order is caught by the
function's own `except` and surfaces as an `error` dictionary. -/
def execute_half_sell_for_exchange (env : HalfSellEnv) (pct : Int) :
    ExecResult × Bool :=
  if pct ≤ 0 then
    ({ skipped := true, reason := some "sell_percent_zero" }, false)
  else if env.btc_free ≤ 0 then
    ({ skipped := true, reason := some "no_balance" }, false)
  else
    let qty := adjust_qty_to_step (env.btc_free * ((pct : ℚ) / 100)) env.stepSize
    if qty < env.minQty then
      ({ skipped := true, reason := some "below_minQty" }, false)
    else if ¬ env.depth_ok then
      ({ skipped := true, reason := some "depth_guard" }, false)
    else if ¬ env.twap_ok then
      ({ skipped := true, reason := some "twap_guard" }, false)
    else
      let notional := qty * env.price
      if ¬ env.cap_ok then
        ({ skipped := true, reason := some "notional_cap" }, false)
      else if ¬ env.liquidity_ok then
        ({ skipped := true, reason := some "liquidity_guard" }, false)
      else if notional < env.minNotional then
        ({ skipped := true, reason := some "below_minNotional" }, false)
      else if env.fill_qty ≤ 0 ∨ env.fill_quote ≤ 0 then
        ({ errorMsg := some "Sell order not filled or zero quantities" }, true)
      else ({ executed := true }, true)

/-- Embedding of `handle_half_sell_action` (src/main.py 203): the status is
SUCCESS exactly when the result's `executed` entry is truthy, FAILED
otherwise. -/
def handle_half_sell_action (env : HalfSellEnv) (action : StrategyAction) :
    ActionResult :=
  let pct := action.payload.percent.getD 0
  let result := (execute_half_sell_for_exchange env pct).1
  { request_id := action.request_id
    dedupe_key := action.dedupe_key
    status := if result.executed then ActionStatus.SUCCESS else ActionStatus.FAILED
    resultPayload := some result }

/-- Environment for `purchase_on_exchange` (src/main.py 1450): guard
verdicts and the fill returned by `place_market_buy_quote`. -/
structure PurchaseEnv where
  depth_ok : Bool
  twap_ok : Bool
  cap_ok : Bool
  fill_qty : ℚ
  fill_quote : ℚ
deriving DecidableEq, Repr

/-- Embedding of `purchase_on_exchange` (src/main.py 1450). -/
def purchase_on_exchange (env : PurchaseEnv) : ExecResult :=
  if ¬ env.depth_ok then { skipped := true, reason := some "depth_guard" }
  else if ¬ env.twap_ok then { skipped := true, reason := some "twap_guard" }
  else if ¬ env.cap_ok then { skipped := true, reason := some "notional_cap" }
  else if env.fill_qty ≤ 0 ∨ env.fill_quote ≤ 0 then
    { errorMsg := some "not filled" }
  else { executed := true }

/-- Embedding of the `handle_exchange_buy` closure inside `gate_weekly_dca`
(src/main.py 2708-2729): executed maps to SUCCESS, skipped to SKIPPED and
anything else to FAILED. -/
def handle_exchange_buy (env : PurchaseEnv) (action : StrategyAction) :
    ActionResult :=
  let result := purchase_on_exchange env
  { request_id := action.request_id
    dedupe_key := action.dedupe_key
    status := if result.executed then ActionStatus.SUCCESS
      else if result.skipped then ActionStatus.SKIPPED
      else ActionStatus.FAILED
    resultPayload := some result }

/-- Environment for `execute_reserve_buy` / `execute_reserve_buy_exchange`:
the reserve read from strategy state, the free USDT balance, the symbol's
minimum notional, the guard verdicts and the fill. -/
structure ReserveBuyEnv where
  reserve : ℚ
  available_usdt : ℚ
  minNotional : ℚ
  depth_ok : Bool
  twap_ok : Bool
  cap_ok : Bool
  liquidity_ok : Bool
  fill_qty : ℚ
  fill_quote : ℚ
deriving DecidableEq, Repr

/-- Embedding of `execute_reserve_buy` (src/main.py 1927) and of
`execute_reserve_buy_exchange` (src/main.py 2113), whose guard pipelines
are identical; only which state column feeds `env.reserve` differs.
Returns the result dictionary and whether an order was placed. -/
def execute_reserve_buy (env : ReserveBuyEnv) : ExecResult × Bool :=
  if env.reserve ≤ 0 then
    ({ skipped := true, reason := some "no_reserve" }, false)
  else
    let spend := min env.available_usdt env.reserve
    if spend < env.minNotional then
      ({ skipped := true, reason := some "below_minNotional" }, false)
    else if ¬ env.depth_ok then
      ({ skipped := true, reason := some "depth_guard" }, false)
    else if ¬ env.twap_ok then
      ({ skipped := true, reason := some "twap_guard" }, false)
    else if ¬ env.cap_ok then
      ({ skipped := true, reason := some "notional_cap" }, false)
    else if ¬ env.liquidity_ok then
      ({ skipped := true, reason := some "liquidity_guard" }, false)
    else if env.fill_qty ≤ 0 ∨ env.fill_quote ≤ 0 then
      ({ errorMsg := some "Reserve buy not filled or zero quantities" }, true)
    else ({ executed := true }, true)

/-- Embedding of `handle_reserve_buy_action` (src/main.py 224): the
exchange-mode variant runs against `envE`, the global one against `envG`;
a result that is executed OR skipped is reported as SUCCESS. -/
def handle_reserve_buy_action (envG envE : ReserveBuyEnv)
    (action : StrategyAction) : ActionResult :=
  let mode := pyLower (action.payload.mode.getD "global")
  let exchange := pyLower (action.payload.exchange.getD "")
  let result :=
    if mode = "exchange" ∧ ¬ exchange = "" then (execute_reserve_buy envE).1
    else (execute_reserve_buy envG).1
  { request_id := action.request_id
    dedupe_key := action.dedupe_key
    status := if result.executed ∨ result.skipped then ActionStatus.SUCCESS
      else ActionStatus.FAILED
    resultPayload := some result }

/-- A Python value handed to `float(...)`: either numeric or one whose
conversion raises TypeError/ValueError. -/
inductive PyNum
  | num (q : ℚ)
  | nonNum
deriving DecidableEq, Repr

/-- The three reserve columns of the `strategy_state` row. -/
structure ReserveState where
  reserve_usdt : ℚ
  reserve_binance_usdt : ℚ
  reserve_okx_usdt : ℚ
deriving DecidableEq, Repr

/-- Embedding of `increment_reserve` (src/main.py 1388): non-numeric or
non-positive amounts return 0.0 and leave the stored reserve untouched;
otherwise the reserve grows by the amount and the new value is returned. -/
def increment_reserve (st : ReserveState) (amount : PyNum) : ReserveState × ℚ :=
  match amount with
  | PyNum.nonNum => (st, 0)
  | PyNum.num amt =>
    if amt ≤ 0 then (st, 0)
    else
      let newVal := st.reserve_usdt + amt
      ({ st with reserve_usdt := newVal }, newVal)

/-- Embedding of `increment_reserve_exchange` (src/main.py 1417): the
binance column is updated for exchange "binance" and the okx column for any
other value, mirroring the source's if/else. -/
def increment_reserve_exchange (st : ReserveState) (exchange : String)
    (amount : PyNum) : ReserveState × ℚ :=
  match amount with
  | PyNum.nonNum => (st, 0)
  | PyNum.num amt =>
    if amt ≤ 0 then (st, 0)
    else if exchange = "binance" then
      let newVal := st.reserve_binance_usdt + amt
      ({ st with reserve_binance_usdt := newVal }, newVal)
    else
      let newVal := st.reserve_okx_usdt + amt
      ({ st with reserve_okx_usdt := newVal }, newVal)

/-- The `GREATEST(reserve_usdt - spend, 0)` update `execute_reserve_buy`
performs after a fill (src/main.py 2052). -/
def reserve_buy_decrement (st : ReserveState) (spend : ℚ) : ReserveState × ℚ :=
  let newVal := max (st.reserve_usdt - spend) 0
  ({ st with reserve_usdt := newVal }, newVal)

/-- The per-exchange `GREATEST(... - spend, 0)` update performed by
`execute_reserve_buy_exchange` (src/main.py 2234-2236). -/
def reserve_buy_decrement_exchange (st : ReserveState) (exchange : String)
    (spend : ℚ) : ReserveState × ℚ :=
  if exchange = "binance" then
    let newVal := max (st.reserve_binance_usdt - spend) 0
    ({ st with reserve_binance_usdt := newVal }, newVal)
  else
    let newVal := max (st.reserve_okx_usdt - spend) 0
    ({ st with reserve_okx_usdt := newVal }, newVal)

/-- One reserve-mutating operation of the process lifecycle. -/
inductive ReserveOp
  | incGlobal (amount : PyNum)
  | incExchange (exchange : String) (amount : PyNum)
  | buyGlobal (spend : ℚ)
  | buyExchange (exchange : String) (spend : ℚ)
deriving DecidableEq, Repr

/-- State transition for one reserve operation. -/
def applyReserveOp (st : ReserveState) : ReserveOp → ReserveState
  | ReserveOp.incGlobal a => (increment_reserve st a).1
  | ReserveOp.incExchange ex a => (increment_reserve_exchange st ex a).1
  | ReserveOp.buyGlobal sp => (reserve_buy_decrement st sp).1
  | ReserveOp.buyExchange ex sp => (reserve_buy_decrement_exchange st ex sp).1

/-- All three stored reserve balances are non-negative. -/
def ReserveState.nonneg (st : ReserveState) : Prop :=
  0 ≤ st.reserve_usdt ∧ 0 ≤ st.reserve_binance_usdt ∧ 0 ≤ st.reserve_okx_usdt

/-- One kline row as consumed by `get_cdc_status_1d`: the close price
(`k[4]`) and the close time in milliseconds (`k[6]`). -/
structure Kline where
  close : ℚ
  closeTimeMs : Int
deriving DecidableEq, Repr

/-- Recursive EMA accumulation: `prev = x*k + prev*(1-k)` per element. -/
def emaFrom (k prev : ℚ) : List ℚ → List ℚ
  | [] => []
  | x :: rest =>
    let nxt := x * k + prev * (1 - k)
    nxt :: emaFrom k nxt rest

/-- Embedding of `_ema_list` (src/main.py 1097). -/
def ema_list (values : List ℚ) (period : Nat) : List ℚ :=
  match values with
  | [] => []
  | v0 :: rest =>
    if period ≤ 1 then values
    else v0 :: emaFrom (2 / ((period : ℚ) + 1)) v0 rest

/-- Embedding of `_last_true_idx` (src/main.py 1111): index of the last
`True` entry, scanning forward and keeping the most recent hit. -/
def last_true_idx (flags : List Bool) : Option Nat :=
  (List.range flags.length).foldl
    (fun acc i => if flags.getD i false then some i else acc) Option.none

/-- Result dictionary of `get_cdc_status_1d`; it carries only a status and
a timestamp — no further tag of any kind. -/
structure CdcData where
  status : String
  updated_at : String
deriving DecidableEq, Repr

/-- Embedding of `get_cdc_status_1d` (src/main.py 1117).  The Binance
klines call is the `fetch` argument, with `.error` meaning the fetch
raised; `useCache`/`cached`/`cacheFresh` model the module-level
`_CDC_CACHE`; `currentMs` is `time.time()*1000` and `nowIso` the
`utcnow().isoformat()+"Z"` string.  The cache-write side effects are
elided; the function's value is `.error` exactly when the Python function
lets an exception escape. -/
def get_cdc_status_1d (useCache : Bool) (cached : Option CdcData)
    (cacheFresh : Bool) (fetch : Except String (List Kline))
    (currentMs : Int) (nowIso : String) : Except String CdcData :=
  if useCache ∧ cached.isSome ∧ cacheFresh then
    Except.ok (cached.getD { status := "down", updated_at := nowIso })
  else
    match fetch with
    | Except.error e => Except.error e
    | Except.ok klines0 =>
      if klines0.length < 50 then
        Except.ok { status := "down", updated_at := nowIso }
      else
        let klines :=
          if ((klines0.getLast?.map Kline.closeTimeMs).getD 0) > currentMs
          then klines0.dropLast else klines0
        let closes := klines.map Kline.close
        let xprice := ema_list closes 1
        let fast := ema_list xprice 12
        let slow := ema_list xprice 26
        let n := closes.length
        let bull := (List.range n).map fun i =>
          decide (slow.getD i 0 < fast.getD i 0)
        let bear := (List.range n).map fun i =>
          decide (fast.getD i 0 < slow.getD i 0)
        let green := (List.range n).map fun i =>
          bull.getD i false && decide (fast.getD i 0 < xprice.getD i 0)
        let red := (List.range n).map fun i =>
          bear.getD i false && decide (xprice.getD i 0 < fast.getD i 0)
        let buycond := (List.range n).map fun i =>
          if i = 0 then false
          else green.getD i false && !(green.getD (i - 1) false)
        let sellcond := (List.range n).map fun i =>
          if i = 0 then false
          else red.getD i false && !(red.getD (i - 1) false)
        let cur : Int := (n : Int) - 1
        let is_bullish :=
          match last_true_idx buycond, last_true_idx sellcond with
          | Option.none, Option.none => bull.getD (n - 1) false
          | some _, Option.none => true
          | Option.none, some _ => false
          | some b, some sIdx =>
            decide ((cur - (b : Int)) < (cur - (sIdx : Int)))
        Except.ok
          { status := if is_bullish then "up" else "down", updated_at := nowIso }

/-- Weekday names accepted by `validate_schedule`. -/
def valid_days : List String :=
  ["monday", "tuesday", "wednesday", "thursday", "friday", "saturday", "sunday"]

/-- Model of `datetime.strptime(s, "%H:%M")`: a one-or-two-digit hour below
24, a colon, and a one-or-two-digit minute below 60. -/
def parseHHMM (t : String) : Option (Nat × Nat) :=
  match pySplitChar ':' t with
  | [h, m] =>
    if h.data.length = 0 ∨ 2 < h.data.length ∨ ¬ h.data.all Char.isDigit then
      Option.none
    else if m.data.length = 0 ∨ 2 < m.data.length ∨ ¬ m.data.all Char.isDigit then
      Option.none
    else
      let hv := pyDigitsToNat h
      let mv := pyDigitsToNat m
      if hv ≤ 23 ∧ mv ≤ 59 then some (hv, mv) else Option.none
  | _ => Option.none

/-- Embedding of `validate_schedule` (src/main.py 961): raises (`.error`)
on a malformed time or on any day outside `valid_days`. -/
def validate_schedule (schedule_time_str : String)
    (schedule_days : List String) : Except String Unit :=
  match parseHHMM schedule_time_str with
  | Option.none =>
    Except.error ("Invalid schedule_time format: " ++ schedule_time_str)
  | some _ =>
    if schedule_days.any (fun d => !(valid_days.contains d)) then
      Except.error "Invalid schedule_day"
    else Except.ok ()

/-- One cached schedule row as iterated by `run_loop_scheduler`; the amount
and exchange-mode columns are carried but do not influence firing. -/
structure ScheduleRow where
  schedule_id : Int
  schedule_time_str : String
  schedule_day : String
  purchase_amount : ℚ := 0
  exchange_mode : String := "global"
deriving DecidableEq, Repr

/-- Clock inputs of one scheduler iteration. -/
structure TickCtx where
  current_day : String
  current_time_str : String
  todayStr : String
deriving DecidableEq, Repr

/-- Seconds between two same-day "HH:MM" times,
`abs((strptime(a) - strptime(b)).total_seconds())`. -/
def time_diff_seconds (a b : String) : Nat :=
  let pa := (parseHHMM a).getD (0, 0)
  let pb := (parseHHMM b).getD (0, 0)
  (((pa.1 : Int) * 3600 + (pa.2 : Int) * 60) -
    ((pb.1 : Int) * 3600 + (pb.2 : Int) * 60)).natAbs

/-- One pass of the per-schedule loop inside `run_loop_scheduler`
(src/main.py 2906-2946).  Returns the ids of schedules that fired (in
order), the updated `last_run_times` map, and the pending exception when
`validate_schedule` raised: in the source that exception aborts the
remaining schedules of the iteration and propagates to the loop's outer
`except` handler. -/
def process_schedules (ctx : TickCtx) :
    List (Int × String) → List ScheduleRow →
      List Int × List (Int × String) × Option String
  | lastRun, [] => ([], lastRun, Option.none)
  | lastRun, s :: rest =>
    let schedule_days := (pySplitComma s.schedule_day).map fun d => pyLower (pyStrip d)
    match validate_schedule s.schedule_time_str schedule_days with
    | Except.error e => ([], lastRun, some e)
    | Except.ok _ =>
      let current_schedule_time := ctx.todayStr ++ " " ++ s.schedule_time_str
      if schedule_days.contains ctx.current_day &&
          decide (time_diff_seconds ctx.current_time_str s.schedule_time_str ≤ 15) then
        if ¬ lastRun.lookup s.schedule_id = some current_schedule_time then
          let tail := process_schedules ctx
            ((s.schedule_id, current_schedule_time) :: lastRun) rest
          (s.schedule_id :: tail.1, tail.2)
        else process_schedules ctx lastRun rest
      else process_schedules ctx lastRun rest

/-- One whole iteration of `run_loop_scheduler` as observed from outside:
the outer `except` swallows any pending exception, so the loop itself
always proceeds to the next tick with the fired set and last-run map
obtained so far. -/
def loop_iteration (ctx : TickCtx) (lastRun : List (Int × String))
    (rows : List ScheduleRow) : List Int × List (Int × String) :=
  let r := process_schedules ctx lastRun rows
  (r.1, r.2.1)

/-- Concrete weekly-DCA input used to instantiate the weekly-DCA theorems:
split mode with a positive binance leg and a zero okx leg on a red signal. -/
def c2WitnessInput : WeeklyDcaDecisionInput :=
  { now := { utcDateRepr := "datetime.date(2026, 1, 5)" }
    schedule_id := 7
    mode := "both"
    amount := 100
    cdc_status := "down"
    cdc_enabled := true
    binance_amount := 25
    okx_amount := 0 }

/-- Concrete transition input: a down-to-up flip with a zero binance
reserve and non-zero global and okx reserves. -/
def c5Input : TransitionDecisionInput :=
  { now := { utcDateRepr := "datetime.date(2026, 1, 5)" }
    previous_status := some "down"
    current_status := "up"
    red_epoch_active := true
    half_sell_policy := "auto_proportional"
    sell_percent_binance := 50
    sell_percent_okx := 50
    sell_percent_global := 50
    active_exchange := "binance"
    reserve_usdt := 100
    reserve_binance_usdt := 0
    reserve_okx_usdt := 25 }

/-- Handler that always reports SUCCESS (as in the repository's
orchestrator test). -/
def successHandler : ActionHandler := fun a =>
  Except.ok
    { request_id := a.request_id, dedupe_key := a.dedupe_key,
      status := ActionStatus.SUCCESS }

/-- Handler table registering `successHandler` for DCA_BUY. -/
def c1Handlers : StrategyActionType → Option ActionHandler := fun t =>
  if t = StrategyActionType.DCA_BUY then some successHandler else Option.none

/-- Concrete DCA_BUY action with a fixed dedupe key. -/
def c1Action : StrategyAction :=
  { action_type := StrategyActionType.DCA_BUY
    request_id := "req"
    dedupe_key := "key"
    payload := { amount := some 10 } }

/-- Half-sell environment where `free × percent/100` floored to the step is
below `minQty`: 0.001 BTC free, 50 percent, step 0.0001, minQty 0.001. -/
def c4Env : HalfSellEnv :=
  { btc_free := 1/1000
    stepSize := 1/10000
    minQty := 1/1000
    minNotional := 10
    price := 50000
    depth_ok := true
    twap_ok := true
    cap_ok := true
    liquidity_ok := true
    fill_qty := 1
    fill_quote := 1 }

/-- HALF_SELL action carrying the 50-percent payload for `c4Env`. -/
def c4Action : StrategyAction :=
  { action_type := StrategyActionType.HALF_SELL
    request_id := "req-hs"
    dedupe_key := "key-hs"
    payload := { exchange := some "binance", percent := some 50 } }

/-- Reserve-buy environment with an empty reserve, so the execution is
skipped with reason `no_reserve`. -/
def c10Env : ReserveBuyEnv :=
  { reserve := 0
    available_usdt := 100
    minNotional := 10
    depth_ok := true
    twap_ok := true
    cap_ok := true
    liquidity_ok := true
    fill_qty := 1
    fill_quote := 1 }

/-- Global-mode RESERVE_BUY action for `c10Env`. -/
def c10Action : StrategyAction :=
  { action_type := StrategyActionType.RESERVE_BUY
    request_id := "req-rb"
    dedupe_key := "key-rb"
    payload := { mode := some "global" } }

/-- Handler table wiring RESERVE_BUY to `handle_reserve_buy_action` over
`c10Env` for both the global and the exchange path. -/
def c10Handlers : StrategyActionType → Option ActionHandler := fun t =>
  if t = StrategyActionType.RESERVE_BUY then
    some (fun act => Except.ok (handle_reserve_buy_action c10Env c10Env act))
  else Option.none

/-- Schedule row whose weekday set fails validation. -/
def badRow : ScheduleRow :=
  { schedule_id := 1, schedule_time_str := "09:00", schedule_day := "funday",
    purchase_amount := 100 }

/-- Valid schedule row eligible to fire under `tick0`. -/
def goodRow : ScheduleRow :=
  { schedule_id := 2, schedule_time_str := "09:00", schedule_day := "monday",
    purchase_amount := 50 }

/-- Clock context matching `goodRow` exactly. -/
def tick0 : TickCtx :=
  { current_day := "monday", current_time_str := "09:00",
    todayStr := "2026-10-12" }

theorem exchange_dca_action_direction (ctx : StrategyContext) (ex : String)
    (amt : ℚ) (st : String) (en : Bool)
    (h : (CdcDcaStrategy.exchange_dca_action ctx ex amt st en).action_type =
      StrategyActionType.RESERVE_MOVE) :
    (CdcDcaStrategy.exchange_dca_action ctx ex amt st en).metadata.reserve_direction =
      some "increase" := by
  simp only [CdcDcaStrategy.exchange_dca_action] at h ⊢
  simp [h]

/-- C2: `decide_weekly_dca` emits DCA_BUY whenever the strategy is
disabled, and otherwise DCA_BUY on signal "up" and RESERVE_MOVE (direction
"increase") on any other signal; in global mode exactly one such action is
produced, and in split mode ("binance"/"okx"/"both") one action per
applicable exchange leg with strictly positive amount and none for a leg
with amount ≤ 0, each leg following the same rule. -/
theorem weekly_dca_decision_rule :
    (∀ (r : String) (d : WeeklyDcaDecisionInput), d.mode = "global" →
      ∃ a, (CdcDcaStrategy.decide_weekly_dca r d).actions = [a] ∧
        a.action_type = specWeeklyKind d.cdc_enabled d.cdc_status ∧
        (a.action_type = StrategyActionType.RESERVE_MOVE →
          a.metadata.reserve_direction = some "increase")) ∧
    (∀ (r : String) (d : WeeklyDcaDecisionInput),
      d.mode = "binance" ∨ d.mode = "okx" ∨ d.mode = "both" →
      ((CdcDcaStrategy.decide_weekly_dca r d).actions.map
          fun a => (a.payload.exchange, a.payload.amount, a.action_type)) =
        ((if (d.mode = "binance" ∨ d.mode = "both") ∧ 0 < d.binance_amount then
            [(some "binance", some d.binance_amount,
              specWeeklyKind d.cdc_enabled d.cdc_status)] else []) ++
         (if (d.mode = "okx" ∨ d.mode = "both") ∧ 0 < d.okx_amount then
            [(some "okx", some d.okx_amount,
              specWeeklyKind d.cdc_enabled d.cdc_status)] else [])) ∧
      (∀ a ∈ (CdcDcaStrategy.decide_weekly_dca r d).actions,
        a.action_type = StrategyActionType.RESERVE_MOVE →
          a.metadata.reserve_direction = some "increase")) := by
  constructor
  · intro r d hmode
    refine ⟨CdcDcaStrategy.global_dca_action
      { now := d.now, request_id := r,
        dedupe_key := dedupe_key_for
          [KeyPart.s "weekly-dca", KeyPart.i d.schedule_id,
           KeyPart.dateRepr d.now.utcDateRepr] } d, ?_, ?_, ?_⟩
    · simp [CdcDcaStrategy.decide_weekly_dca, hmode]
    · simp [CdcDcaStrategy.global_dca_action, cdcWeeklyKind_eq_spec]
    · intro hmove
      simp only [CdcDcaStrategy.global_dca_action] at hmove ⊢
      split
      · simp
      · rename_i hne
        exact absurd hmove hne
  · intro r d hmode
    have hng : ¬ d.mode = "global" := by
      rcases hmode with h | h | h <;> simp [h]
    constructor
    · simp only [CdcDcaStrategy.decide_weekly_dca, hng, if_false, List.map_append]
      congr 1 <;> split <;> rename_i hc
      · simp [CdcDcaStrategy.exchange_dca_action, cdcWeeklyKind_eq_spec, hc.2]
      · simp [CdcDcaStrategy.exchange_dca_action, hc]
      · simp [CdcDcaStrategy.exchange_dca_action, cdcWeeklyKind_eq_spec, hc.2]
      · simp [CdcDcaStrategy.exchange_dca_action, hc]
    · intro a ha hmove
      simp only [CdcDcaStrategy.decide_weekly_dca, hng, if_false, List.mem_append] at ha
      rcases ha with ha | ha <;>
        (split at ha <;> simp only [List.mem_singleton, List.not_mem_nil] at ha) <;>
        · subst ha
          exact exchange_dca_action_direction _ _ _ _ _ hmove

/-- Witness for C2: under `c2WitnessInput` (mode "both", red signal,
binance leg 25, okx leg 0) exactly one RESERVE_MOVE action for binance is
emitted, and in global mode one RESERVE_MOVE action. -/
theorem weekly_dca_decision_rule_witness :
    ((CdcDcaStrategy.decide_weekly_dca "req-1" c2WitnessInput).actions.map
       fun a => (a.payload.exchange, a.payload.amount, a.action_type)) =
      [(some "binance", some 25, StrategyActionType.RESERVE_MOVE)] ∧
    (∃ a, (CdcDcaStrategy.decide_weekly_dca "req-1"
        { c2WitnessInput with mode := "global" }).actions = [a] ∧
      a.action_type = StrategyActionType.RESERVE_MOVE) := by
  constructor
  · have h := (weekly_dca_decision_rule.2 "req-1" c2WitnessInput
      (Or.inr (Or.inr rfl))).1
    simpa [c2WitnessInput, specWeeklyKind] using h
  · obtain ⟨a, ha, hk, _⟩ := weekly_dca_decision_rule.1 "req-1"
      { c2WitnessInput with mode := "global" } rfl
    exact ⟨a, ha, by simpa [c2WitnessInput, specWeeklyKind] using hk⟩

/-- C5 counterexample: on the down-to-up transition `c5Input`, whose
binance reserve is zero, `decide_transition` still emits three RESERVE_BUY
actions, including a binance leg with amount 0 — refuting the claim that an
exchange with zero per-exchange reserve produces no action. -/
theorem reserve_buy_zero_exchange_counterexample :
    ((CdcDcaStrategy.decide_transition "req-2" c5Input).actions.map
       fun a => (a.payload.mode, a.payload.exchange, a.payload.amount)) =
      [(some "global", Option.none, some 100),
       (some "exchange", some "binance", some 0),
       (some "exchange", some "okx", some 25)] := by rfl

/-- C5 amended: on any signal transition to "up", `decide_transition`
emits exactly one global RESERVE_BUY plus one RESERVE_BUY per exchange
(binance and okx) unconditionally, with amounts clamped at 0 — an exchange
with zero reserve still yields an action of amount 0. -/
theorem transition_up_reserve_buy_actions (r : String)
    (d : TransitionDecisionInput)
    (hne : ¬ d.previous_status = some d.current_status)
    (hup : d.current_status = "up") :
    ((CdcDcaStrategy.decide_transition r d).actions.map
       fun a => (a.payload.mode, a.payload.exchange, a.payload.amount, a.action_type)) =
      [(some "global", Option.none, some (max d.reserve_usdt 0),
        StrategyActionType.RESERVE_BUY),
       (some "exchange", some "binance", some (max d.reserve_binance_usdt 0),
        StrategyActionType.RESERVE_BUY),
       (some "exchange", some "okx", some (max d.reserve_okx_usdt 0),
        StrategyActionType.RESERVE_BUY)] := by
  rw [hup] at hne
  simp only [CdcDcaStrategy.decide_transition, hup, if_neg hne]
  simp [CdcDcaStrategy.reserve_buy_actions]

/-- Witness for the amended C5 at the concrete input `c5Input`. -/
theorem transition_up_reserve_buy_actions_witness :
    ((CdcDcaStrategy.decide_transition "req-2" c5Input).actions.map
       fun a => (a.payload.mode, a.payload.exchange, a.payload.amount, a.action_type)) =
      [(some "global", Option.none, some 100, StrategyActionType.RESERVE_BUY),
       (some "exchange", some "binance", some 0, StrategyActionType.RESERVE_BUY),
       (some "exchange", some "okx", some 25, StrategyActionType.RESERVE_BUY)] := by
  have h := transition_up_reserve_buy_actions "req-2" c5Input (by decide) rfl
  simpa [c5Input] using h

theorem half_sell_loop_keys (d : TransitionDecisionInput)
    (c1 c2 : StrategyContext) (hk : c1.dedupe_key = c2.dedupe_key) :
    ∀ (seen : List String) (exs : List String),
      ((CdcDcaStrategy.half_sell_loop c1 d seen exs).map fun a => a.dedupe_key) =
        ((CdcDcaStrategy.half_sell_loop c2 d seen exs).map fun a => a.dedupe_key) := by
  intro seen exs
  induction exs generalizing seen with
  | nil => rfl
  | cons ex rest ih =>
    simp only [CdcDcaStrategy.half_sell_loop]
    split
    · exact ih _
    · split
      · exact ih _
      · simp [ih _, hk]

theorem half_sell_loop_req (ctx : StrategyContext) (d : TransitionDecisionInput) :
    ∀ (seen : List String) (exs : List String),
      ∀ a ∈ CdcDcaStrategy.half_sell_loop ctx d seen exs,
        a.request_id = ctx.request_id := by
  intro seen exs
  induction exs generalizing seen with
  | nil => intro a ha; simp [CdcDcaStrategy.half_sell_loop] at ha
  | cons ex rest ih =>
    intro a ha
    simp only [CdcDcaStrategy.half_sell_loop] at ha
    split at ha
    · exact ih _ a ha
    · split at ha
      · exact ih _ a ha
      · rcases List.mem_cons.mp ha with rfl | h
        · rfl
        · exact ih _ a h

theorem half_sell_actions_keys (d : TransitionDecisionInput)
    (c1 c2 : StrategyContext) (hk : c1.dedupe_key = c2.dedupe_key) :
    ((CdcDcaStrategy.half_sell_actions c1 d).map fun a => a.dedupe_key) =
      ((CdcDcaStrategy.half_sell_actions c2 d).map fun a => a.dedupe_key) := by
  simp only [CdcDcaStrategy.half_sell_actions]
  exact half_sell_loop_keys d c1 c2 hk _ _

theorem half_sell_actions_req (ctx : StrategyContext)
    (d : TransitionDecisionInput) :
    ∀ a ∈ CdcDcaStrategy.half_sell_actions ctx d,
      a.request_id = ctx.request_id := by
  simp only [CdcDcaStrategy.half_sell_actions]
  exact half_sell_loop_req ctx d _ _

/-- C7: dedupe keys are deterministic functions of the decision input
alone: two invocations of `decide_weekly_dca` (or `decide_transition`) on
equal inputs but different uuid request ids produce position-wise identical
dedupe keys, while the request id itself is carried verbatim into each
action — so uuid randomness never enters a dedupe key. -/
theorem dedupe_keys_deterministic (d : WeeklyDcaDecisionInput)
    (t : TransitionDecisionInput) (r1 r2 : String) :
    ((CdcDcaStrategy.decide_weekly_dca r1 d).actions.map fun a => a.dedupe_key) =
      ((CdcDcaStrategy.decide_weekly_dca r2 d).actions.map fun a => a.dedupe_key) ∧
    ((CdcDcaStrategy.decide_transition r1 t).actions.map fun a => a.dedupe_key) =
      ((CdcDcaStrategy.decide_transition r2 t).actions.map fun a => a.dedupe_key) ∧
    (∀ a ∈ (CdcDcaStrategy.decide_weekly_dca r1 d).actions, a.request_id = r1) ∧
    (∀ a ∈ (CdcDcaStrategy.decide_transition r1 t).actions, a.request_id = r1) := by
  refine ⟨?_, ?_, ?_, ?_⟩
  · simp only [CdcDcaStrategy.decide_weekly_dca]
    split
    · simp [CdcDcaStrategy.global_dca_action]
    · simp only [List.map_append]
      congr 1 <;> split <;> simp [CdcDcaStrategy.exchange_dca_action]
  · simp only [CdcDcaStrategy.decide_transition]
    split
    · rfl
    · dsimp only
      split
      · split
        · exact half_sell_actions_keys t _ _ rfl
        · rfl
      · split
        · simp [CdcDcaStrategy.reserve_buy_actions]
        · rfl
  · simp only [CdcDcaStrategy.decide_weekly_dca]
    split
    · intro a ha
      rcases List.mem_singleton.mp ha with rfl
      rfl
    · intro a ha
      rcases List.mem_append.mp ha with h | h <;>
        (split at h <;> simp only [List.mem_singleton, List.not_mem_nil] at h) <;>
        · subst h
          rfl
  · simp only [CdcDcaStrategy.decide_transition]
    split
    · intro a ha; simp at ha
    · dsimp only
      split
      · split
        · intro a ha
          exact half_sell_actions_req _ t a ha
        · intro a ha; simp at ha
      · split
        · intro a ha
          simp only [CdcDcaStrategy.reserve_buy_actions, List.mem_cons,
            List.not_mem_nil, or_false] at ha
          rcases ha with rfl | rfl | rfl <;> rfl
        · intro a ha; simp at ha

/-- C8: for step > 0, `floor_to_step v step` equals `k*step` for the
greatest integer k with `k*step ≤ v`; for step ≤ 0 the value is returned
unchanged. -/
theorem floor_to_step_spec :
    (∀ (v s : ℚ), 0 < s →
      ExchangeAdapter.floor_to_step v s = (Int.floor (v / s) : ℚ) * s ∧
      (Int.floor (v / s) : ℚ) * s ≤ v ∧
      ∀ k : ℤ, (k : ℚ) * s ≤ v → k ≤ Int.floor (v / s)) ∧
    (∀ (v s : ℚ), s ≤ 0 → ExchangeAdapter.floor_to_step v s = v) := by
  constructor
  · intro v s hs
    refine ⟨?_, ?_, ?_⟩
    · simp [ExchangeAdapter.floor_to_step, hs.ne', not_le.mpr hs]
    · calc ((Int.floor (v / s) : ℚ)) * s ≤ (v / s) * s :=
            mul_le_mul_of_nonneg_right (Int.floor_le _) hs.le
        _ = v := div_mul_cancel₀ v hs.ne'
    · intro k hk
      exact Int.le_floor.mpr ((le_div_iff₀ hs).mpr hk)
  · intro v s hs
    simp [ExchangeAdapter.floor_to_step, hs]

/-- Witness for C8 at v = 7, step = 2 (and the step ≤ 0 branch at -1). -/
theorem floor_to_step_spec_witness :
    ExchangeAdapter.floor_to_step 7 2 ≤ 7 ∧
    (3 : ℤ) ≤ Int.floor ((7 : ℚ) / 2) ∧
    ExchangeAdapter.floor_to_step 5 (-1) = 5 := by
  obtain ⟨he, hle, hk⟩ := floor_to_step_spec.1 7 2 (by norm_num)
  exact ⟨by rw [he]; exact hle, hk 3 (by norm_num),
    floor_to_step_spec.2 5 (-1) (by norm_num)⟩

theorem applyReserveOp_nonneg (st : ReserveState) (op : ReserveOp)
    (h : st.nonneg) : (applyReserveOp st op).nonneg := by
  obtain ⟨h1, h2, h3⟩ := h
  cases op with
  | incGlobal a =>
    cases a with
    | nonNum => exact ⟨h1, h2, h3⟩
    | num q =>
      by_cases hq : q ≤ 0
      · simp only [applyReserveOp, increment_reserve, if_pos hq]
        exact ⟨h1, h2, h3⟩
      · simp only [applyReserveOp, increment_reserve, if_neg hq]
        refine ⟨?_, h2, h3⟩
        have : (0:ℚ) < q := lt_of_not_le hq
        dsimp only
        linarith
  | incExchange ex a =>
    cases a with
    | nonNum => exact ⟨h1, h2, h3⟩
    | num q =>
      by_cases hq : q ≤ 0
      · simp only [applyReserveOp, increment_reserve_exchange, if_pos hq]
        exact ⟨h1, h2, h3⟩
      · have hq' : (0:ℚ) < q := lt_of_not_le hq
        by_cases hex : ex = "binance"
        · simp only [applyReserveOp, increment_reserve_exchange, if_neg hq, if_pos hex]
          exact ⟨h1, by dsimp only; linarith, h3⟩
        · simp only [applyReserveOp, increment_reserve_exchange, if_neg hq, if_neg hex]
          exact ⟨h1, h2, by dsimp only; linarith⟩
  | buyGlobal sp =>
    exact ⟨le_max_right _ _, h2, h3⟩
  | buyExchange ex sp =>
    by_cases hex : ex = "binance"
    · simp only [applyReserveOp, reserve_buy_decrement_exchange, if_pos hex]
      exact ⟨h1, le_max_right _ _, h3⟩
    · simp only [applyReserveOp, reserve_buy_decrement_exchange, if_neg hex]
      exact ⟨h1, h2, le_max_right _ _⟩

/-- C3: non-positive or non-numeric amounts leave the reserves untouched
and return 0.0; the reserve-buy decrements clamp at 0; and any sequence of
increment/decrement operations from a non-negative state keeps every
reserve balance non-negative. -/
theorem reserve_never_negative :
    (∀ (st : ReserveState) (a : PyNum),
      (a = PyNum.nonNum ∨ ∃ q, a = PyNum.num q ∧ q ≤ 0) →
        increment_reserve st a = (st, 0) ∧
        ∀ ex, increment_reserve_exchange st ex a = (st, 0)) ∧
    (∀ (st : ReserveState) (spend : ℚ) (ex : String),
      0 ≤ (reserve_buy_decrement st spend).1.reserve_usdt ∧
      0 ≤ (reserve_buy_decrement_exchange st ex spend).2) ∧
    (∀ (st : ReserveState) (ops : List ReserveOp),
      st.nonneg → (ops.foldl applyReserveOp st).nonneg) := by
  refine ⟨?_, ?_, ?_⟩
  · intro st a ha
    rcases ha with rfl | ⟨q, rfl, hq⟩
    · exact ⟨rfl, fun ex => rfl⟩
    · exact ⟨by simp [increment_reserve, hq],
        fun ex => by simp [increment_reserve_exchange, hq]⟩
  · intro st spend ex
    constructor
    · exact le_max_right _ _
    · by_cases hex : ex = "binance" <;>
        simp [reserve_buy_decrement_exchange, hex]
  · intro st ops
    induction ops generalizing st with
    | nil => exact fun h => h
    | cons op rest ih =>
      intro h
      exact ih _ (applyReserveOp_nonneg st op h)

/-- Witness for C3: a concrete run over all four operation kinds from the
zero state stays non-negative, and a zero increment is a no-op. -/
theorem reserve_never_negative_witness :
    increment_reserve { reserve_usdt := 5, reserve_binance_usdt := 1,
                        reserve_okx_usdt := 2 } (PyNum.num 0) =
      ({ reserve_usdt := 5, reserve_binance_usdt := 1, reserve_okx_usdt := 2 }, 0) ∧
    ([ReserveOp.incGlobal (PyNum.num 10), ReserveOp.buyGlobal 30,
      ReserveOp.incExchange "okx" PyNum.nonNum,
      ReserveOp.buyExchange "binance" 7].foldl applyReserveOp
        { reserve_usdt := 0, reserve_binance_usdt := 0,
          reserve_okx_usdt := 0 }).nonneg := by
  constructor
  · exact (reserve_never_negative.1 _ (PyNum.num 0)
      (Or.inr ⟨0, rfl, le_refl 0⟩)).1
  · exact reserve_never_negative.2.2 _ _ ⟨le_refl 0, le_refl 0, le_refl 0⟩

/-- C4 (code bug): at `c4Env` the half-sell executor computes
0.001 × 50/100 floored to step 0.0001 = 0.0005 < minQty 0.001, returns the
skip dictionary with reason "below_minQty" and submits no order — but
`handle_half_sell_action` (main.py 215) maps every non-executed result to
FAILED, so the ActionResult is FAILED instead of the SKIPPED the spec
requires; by contrast the weekly-DCA exchange-buy handler does report a
guard rejection as SKIPPED (last conjunct). -/
theorem half_sell_below_minQty_reported_failed :
    execute_half_sell_for_exchange c4Env 50 =
      ({ skipped := true, reason := some "below_minQty" }, false) ∧
    (handle_half_sell_action c4Env c4Action).status = ActionStatus.FAILED ∧
    ¬ (handle_half_sell_action c4Env c4Action).status = ActionStatus.SKIPPED ∧
    (handle_exchange_buy { depth_ok := false, twap_ok := true, cap_ok := true,
                           fill_qty := 1, fill_quote := 1 } c4Action).status =
      ActionStatus.SKIPPED := by
  have hexec : execute_half_sell_for_exchange c4Env 50 =
      ({ skipped := true, reason := some "below_minQty" }, false) := by
    rw [execute_half_sell_for_exchange]
    norm_num [c4Env, adjust_qty_to_step, truncTowardZero]
  have hhandle : (handle_half_sell_action c4Env c4Action).status =
      ActionStatus.FAILED := by
    rw [handle_half_sell_action]
    norm_num [c4Action, hexec]
  refine ⟨hexec, hhandle, ?_, by rfl⟩
  rw [hhandle]
  decide

/-- C6 counterexample: when the klines fetch raises, the exception
propagates out of `get_cdc_status_1d` instead of degrading to a "down"
result — the function body has no try/except around the fetch. -/
theorem cdc_status_fetch_failure_raises :
    get_cdc_status_1d false Option.none false
      (Except.error "klines fetch failed") 0 "2026-10-12T00:00:00Z" =
      Except.error "klines fetch failed" := rfl

/-- C6 amended: with fewer than 50 candles the function returns status
"down" (a record carrying only a status and a timestamp — no error tag)
without raising; a fetch failure, however, raises out of
`get_cdc_status_1d` and is only absorbed by the callers' surrounding
try/except blocks, such as the scheduler loop's catch-all. -/
theorem cdc_status_error_handling :
    (∀ (useCache : Bool) (cached : Option CdcData) (cacheFresh : Bool)
       (klines : List Kline) (ms : Int) (iso : String),
      ¬ (useCache ∧ cached.isSome ∧ cacheFresh) → klines.length < 50 →
        get_cdc_status_1d useCache cached cacheFresh (Except.ok klines) ms iso =
          Except.ok { status := "down", updated_at := iso }) ∧
    (∀ (useCache : Bool) (cached : Option CdcData) (cacheFresh : Bool)
       (e : String) (ms : Int) (iso : String),
      ¬ (useCache ∧ cached.isSome ∧ cacheFresh) →
        get_cdc_status_1d useCache cached cacheFresh (Except.error e) ms iso =
          Except.error e) := by
  constructor
  · intro u c f klines ms iso hc hlen
    simp only [get_cdc_status_1d, if_neg hc]
    rw [if_pos hlen]
  · intro u c f e ms iso hc
    simp only [get_cdc_status_1d, if_neg hc]

/-- Witness for the amended C6: an empty candle list degrades to "down"
and a failing fetch yields the propagated error. -/
theorem cdc_status_error_handling_witness :
    get_cdc_status_1d false Option.none false (Except.ok []) 0 "t" =
      Except.ok { status := "down", updated_at := "t" } ∧
    get_cdc_status_1d true Option.none true (Except.error "boom") 0 "t" =
      Except.error "boom" := by
  constructor
  · exact cdc_status_error_handling.1 false Option.none false [] 0 "t"
      (by simp) (by simp)
  · exact cdc_status_error_handling.2 true Option.none true "boom" 0 "t"
      (by simp)

/-- C9 counterexample: with the malformed `badRow` first, the whole
iteration aborts — the eligible `goodRow` does not fire — although
`goodRow` alone fires under the same clock. -/
theorem schedule_abort_counterexample :
    process_schedules tick0 [] [badRow, goodRow] =
      ([], [], some "Invalid schedule_day") ∧
    process_schedules tick0 [] [goodRow] =
      ([2], [(2, "2026-10-12 09:00")], Option.none) := by
  constructor <;> rfl

/-- C9 amended: a schedule failing validation aborts the remainder of that
iteration's schedule loop: the schedules before it are evaluated normally
(their firings and last-run updates stand), while the malformed schedule
and every schedule after it are skipped for the tick; the pending
exception is swallowed by the loop's outer handler, so the scheduler
itself continues. -/
theorem schedule_abort_behavior (ctx : TickCtx) (lastRun : List (Int × String))
    (pre post : List ScheduleRow) (bad : ScheduleRow) (e : String)
    (hpre : ∀ s ∈ pre, validate_schedule s.schedule_time_str
        ((pySplitComma s.schedule_day).map fun d => pyLower (pyStrip d)) =
        Except.ok ())
    (hbad : validate_schedule bad.schedule_time_str
        ((pySplitComma bad.schedule_day).map fun d => pyLower (pyStrip d)) =
        Except.error e) :
    (process_schedules ctx lastRun (pre ++ bad :: post)).1 =
      (process_schedules ctx lastRun pre).1 ∧
    (process_schedules ctx lastRun (pre ++ bad :: post)).2.1 =
      (process_schedules ctx lastRun pre).2.1 ∧
    (process_schedules ctx lastRun (pre ++ bad :: post)).2.2 = some e ∧
    loop_iteration ctx lastRun (pre ++ bad :: post) =
      ((process_schedules ctx lastRun pre).1,
        (process_schedules ctx lastRun pre).2.1) := by
  have main : ∀ (pre2 : List ScheduleRow) (lr : List (Int × String)),
      (∀ s ∈ pre2, validate_schedule s.schedule_time_str
        ((pySplitComma s.schedule_day).map fun d => pyLower (pyStrip d)) =
        Except.ok ()) →
      (process_schedules ctx lr (pre2 ++ bad :: post)).1 =
        (process_schedules ctx lr pre2).1 ∧
      (process_schedules ctx lr (pre2 ++ bad :: post)).2.1 =
        (process_schedules ctx lr pre2).2.1 ∧
      (process_schedules ctx lr (pre2 ++ bad :: post)).2.2 = some e := by
    intro pre2
    induction pre2 with
    | nil =>
      intro lr _
      simp [process_schedules, hbad]
    | cons s rest ih =>
      intro lr hval
      have hs := hval s (List.mem_cons_self _ _)
      have hrest := fun x hx => hval x (List.mem_cons_of_mem _ hx)
      simp only [List.cons_append, process_schedules, hs]
      split
      · split
        · exact ⟨by simp [(ih _ hrest).1], by simp [(ih _ hrest).2.1],
            by simp [(ih _ hrest).2.2]⟩
        · exact ih _ hrest
      · exact ih _ hrest
  obtain ⟨h1, h2, h3⟩ := main pre lastRun hpre
  exact ⟨h1, h2, h3, by simp [loop_iteration, h1, h2]⟩

/-- Witness for the amended C9: with `goodRow` ahead of `badRow`, the good
schedule fires, the iteration's error is recorded and then swallowed. -/
theorem schedule_abort_behavior_witness :
    (process_schedules tick0 [] [goodRow, badRow]).1 = [2] ∧
    (process_schedules tick0 [] [goodRow, badRow]).2.2 =
      some "Invalid schedule_day" ∧
    loop_iteration tick0 [] [goodRow, badRow] =
      ([2], [(2, "2026-10-12 09:00")]) := by
  have h := schedule_abort_behavior tick0 [] [goodRow] [] badRow
    "Invalid schedule_day"
    (by
      intro s hs
      rcases List.mem_singleton.mp hs with rfl
      rfl)
    (by rfl)
  simp only [List.singleton_append] at h
  refine ⟨?_, h.2.2.1, ?_⟩
  · rw [h.1]; rfl
  · rw [h.2.2.2]; rfl

theorem execute_cache_mono (handlers : StrategyActionType → Option ActionHandler)
    (k : String) :
    ∀ (batch : List StrategyAction) (cache : List String), k ∈ cache →
      k ∈ (StrategyOrchestrator.execute handlers cache batch).2.1 := by
  intro batch
  induction batch with
  | nil => intro cache h; simpa [StrategyOrchestrator.execute] using h
  | cons a rest ih =>
    intro cache h
    simp only [StrategyOrchestrator.execute]
    split
    · exact ih cache h
    · split
      · exact ih cache h
      · dsimp only
        split
        · exact ih _ (List.mem_cons_of_mem _ h)
        · exact ih _ h

theorem execute_trace_uncached
    (handlers : StrategyActionType → Option ActionHandler) :
    ∀ (batch : List StrategyAction) (cache : List String),
      ∀ a ∈ (StrategyOrchestrator.execute handlers cache batch).2.2,
        ¬ a.dedupe_key ∈ cache := by
  intro batch
  induction batch with
  | nil => intro cache a ha; simp [StrategyOrchestrator.execute] at ha
  | cons b rest ih =>
    intro cache a ha
    simp only [StrategyOrchestrator.execute] at ha
    split at ha
    · exact ih cache a ha
    · rename_i hmem
      split at ha
      · exact ih cache a ha
      · dsimp only at ha
        rcases List.mem_cons.mp ha with rfl | h2
        · exact hmem
        · intro hak
          refine ih _ a h2 ?_
          split
          · exact List.mem_cons_of_mem _ hak
          · exact hak

theorem execute_zip_dup (handlers : StrategyActionType → Option ActionHandler) :
    ∀ (batch : List StrategyAction) (cache : List String),
      ∀ p ∈ batch.zip (StrategyOrchestrator.execute handlers cache batch).1,
        p.1.dedupe_key ∈ cache → p.2 = duplicate_result p.1 := by
  intro batch
  induction batch with
  | nil => intro cache p hp; simp at hp
  | cons b rest ih =>
    intro cache p hp hkey
    simp only [StrategyOrchestrator.execute] at hp
    split at hp
    · rcases List.mem_cons.mp hp with rfl | h2
      · rfl
      · exact ih cache p h2 hkey
    · rename_i hmem
      split at hp
      · rcases List.mem_cons.mp hp with rfl | h2
        · exact absurd hkey hmem
        · exact ih cache p h2 hkey
      · dsimp only at hp
        rcases List.mem_cons.mp hp with rfl | h2
        · exact absurd hkey hmem
        · refine ih _ p h2 ?_
          split
          · exact List.mem_cons_of_mem _ hkey
          · exact hkey

theorem execute_cache_new_success
    (handlers : StrategyActionType → Option ActionHandler) :
    ∀ (batch : List StrategyAction) (cache : List String) (k : String),
      k ∈ (StrategyOrchestrator.execute handlers cache batch).2.1 →
      k ∈ cache ∨ ∃ a ∈ batch, a.dedupe_key = k ∧
        ∃ r, handler_outcome handlers a = some r ∧
          r.status = ActionStatus.SUCCESS := by
  intro batch
  induction batch with
  | nil =>
    intro cache k hk
    simp only [StrategyOrchestrator.execute] at hk
    exact Or.inl hk
  | cons b rest ih =>
    intro cache k hk
    simp only [StrategyOrchestrator.execute] at hk
    split at hk
    · rcases ih cache k hk with h | ⟨a, ha, hrest⟩
      · exact Or.inl h
      · exact Or.inr ⟨a, List.mem_cons_of_mem _ ha, hrest⟩
    · rename_i hmem
      split at hk
      · rcases ih cache k hk with h | ⟨a, ha, hrest⟩
        · exact Or.inl h
        · exact Or.inr ⟨a, List.mem_cons_of_mem _ ha, hrest⟩
      · rename_i h hlook
        dsimp only at hk
        rcases ih _ k hk with hcase | ⟨a, ha, hrest⟩
        · rename_i hignore
          revert hcase
          split
          · rename_i hsucc
            intro hcase
            rcases List.mem_cons.mp hcase with rfl | hc
            · refine Or.inr ⟨b, List.mem_cons_self _ _, rfl, ?_⟩
              exact ⟨resolve_handler h b, by simp [handler_outcome, hlook], hsucc⟩
            · exact Or.inl hc
          · intro hcase
            exact Or.inl hcase
        · exact Or.inr ⟨a, List.mem_cons_of_mem _ ha, hrest⟩

theorem execute_pair (handlers : StrategyActionType → Option ActionHandler)
    (cache : List String) (a1 a2 : StrategyAction)
    (hkey : a1.dedupe_key = a2.dedupe_key)
    (hnc : ¬ a1.dedupe_key ∈ cache)
    (r : ActionResult) (hr : handler_outcome handlers a1 = some r)
    (hs : r.status = ActionStatus.SUCCESS) :
    (StrategyOrchestrator.execute handlers cache [a1, a2]).1 =
      [r, duplicate_result a2] ∧
    (StrategyOrchestrator.execute handlers cache [a1, a2]).2.2 = [a1] := by
  rcases hl : handlers a1.action_type with _ | h
  · rw [handler_outcome, hl] at hr
    cases hr
  · rw [handler_outcome, hl] at hr
    have hres : resolve_handler h a1 = r := Option.some.inj hr
    have hmem2 : a2.dedupe_key ∈ a1.dedupe_key :: cache := by
      rw [← hkey]
      exact List.mem_cons_self _ _
    simp only [StrategyOrchestrator.execute, if_neg hnc, hl, hres, if_pos hs,
      if_pos hmem2]
    constructor <;> first | rfl | trivial

theorem execute_count_cached
    (handlers : StrategyActionType → Option ActionHandler) (k : String)
    (batch : List StrategyAction) (cache : List String) (hk : k ∈ cache) :
    (StrategyOrchestrator.execute handlers cache batch).2.2.countP
      (fun a => decide (a.dedupe_key = k)) = 0 := by
  rw [List.countP_eq_zero]
  intro a ha
  simp only [decide_eq_true_eq]
  intro hak
  exact execute_trace_uncached handlers batch cache a ha (hak ▸ hk)

theorem execute_count_uncached
    (handlers : StrategyActionType → Option ActionHandler) (k : String)
    (hsucc : ∀ a : StrategyAction, a.dedupe_key = k →
      ∀ r, handler_outcome handlers a = some r →
        r.status = ActionStatus.SUCCESS) :
    ∀ (batch : List StrategyAction) (cache : List String), ¬ k ∈ cache →
      ((StrategyOrchestrator.execute handlers cache batch).2.2.countP
          (fun a => decide (a.dedupe_key = k)) = 0 ∧
        ¬ k ∈ (StrategyOrchestrator.execute handlers cache batch).2.1) ∨
      ((StrategyOrchestrator.execute handlers cache batch).2.2.countP
          (fun a => decide (a.dedupe_key = k)) = 1 ∧
        k ∈ (StrategyOrchestrator.execute handlers cache batch).2.1) := by
  intro batch
  induction batch with
  | nil =>
    intro cache hnc
    exact Or.inl ⟨rfl, hnc⟩
  | cons b rest ih =>
    intro cache hnc
    simp only [StrategyOrchestrator.execute]
    split
    · exact ih cache hnc
    · rename_i hbmem
      rcases hl : handlers b.action_type with _ | h
    -- none: same cache
      · exact ih cache hnc
      · dsimp only
        by_cases hbk : b.dedupe_key = k
        · have hst : (resolve_handler h b).status = ActionStatus.SUCCESS :=
            hsucc b hbk (resolve_handler h b) (by rw [handler_outcome, hl])
          rw [if_pos hst]
          have hk2 : k ∈ b.dedupe_key :: cache := by
            rw [hbk]
            exact List.mem_cons_self _ _
          refine Or.inr ⟨?_, execute_cache_mono handlers k rest _ hk2⟩
          rw [List.countP_cons_of_pos _ _ (by simp [hbk]),
            execute_count_cached handlers k rest _ hk2]
        · have hcount : ∀ (c2 : List String),
              (StrategyOrchestrator.execute handlers c2 rest).2.2.countP
                (fun a => decide (a.dedupe_key = k)) =
              (b :: (StrategyOrchestrator.execute handlers c2 rest).2.2).countP
                (fun a => decide (a.dedupe_key = k)) := by
            intro c2
            rw [List.countP_cons_of_neg _ _ (by simp [hbk])]
          split
          · have hnc2 : ¬ k ∈ b.dedupe_key :: cache := by
              intro hx
              rcases List.mem_cons.mp hx with rfl | hx2
              · exact hbk rfl
              · exact hnc hx2
            rcases ih _ hnc2 with ⟨h1, h2⟩ | ⟨h1, h2⟩
            · exact Or.inl ⟨by rw [← hcount]; exact h1, h2⟩
            · exact Or.inr ⟨by rw [← hcount]; exact h1, h2⟩
          · rcases ih cache hnc with ⟨h1, h2⟩ | ⟨h1, h2⟩
            · exact Or.inl ⟨by rw [← hcount]; exact h1, h2⟩
            · exact Or.inr ⟨by rw [← hcount]; exact h1, h2⟩

theorem run_cache_mono (handlers : StrategyActionType → Option ActionHandler)
    (k : String) :
    ∀ (batches : List (List StrategyAction)) (cache : List String),
      k ∈ cache → k ∈ (StrategyOrchestrator.run handlers cache batches).1 := by
  intro batches
  induction batches with
  | nil => intro cache h; simpa [StrategyOrchestrator.run] using h
  | cons batch more ih =>
    intro cache h
    simp only [StrategyOrchestrator.run]
    exact ih _ (execute_cache_mono handlers k batch cache h)

theorem run_trace_uncached
    (handlers : StrategyActionType → Option ActionHandler) :
    ∀ (batches : List (List StrategyAction)) (cache : List String),
      ∀ a ∈ (StrategyOrchestrator.run handlers cache batches).2,
        ¬ a.dedupe_key ∈ cache := by
  intro batches
  induction batches with
  | nil => intro cache a ha; simp [StrategyOrchestrator.run] at ha
  | cons batch more ih =>
    intro cache a ha
    simp only [StrategyOrchestrator.run] at ha
    rcases List.mem_append.mp ha with h | h
    · exact execute_trace_uncached handlers batch cache a h
    · intro hak
      exact ih _ a h (execute_cache_mono handlers a.dedupe_key batch cache hak)

theorem run_count_uncached
    (handlers : StrategyActionType → Option ActionHandler) (k : String)
    (hsucc : ∀ a : StrategyAction, a.dedupe_key = k →
      ∀ r, handler_outcome handlers a = some r →
        r.status = ActionStatus.SUCCESS) :
    ∀ (batches : List (List StrategyAction)) (cache : List String),
      ¬ k ∈ cache →
      (StrategyOrchestrator.run handlers cache batches).2.countP
        (fun a => decide (a.dedupe_key = k)) ≤ 1 := by
  intro batches
  induction batches with
  | nil => intro cache _; simp [StrategyOrchestrator.run]
  | cons batch more ih =>
    intro cache hnc
    simp only [StrategyOrchestrator.run, List.countP_append]
    rcases execute_count_uncached handlers k hsucc batch cache hnc with
      ⟨h1, h2⟩ | ⟨h1, h2⟩
    · rw [h1]
      simpa using ih _ h2
    · rw [h1]
      have hzero : (StrategyOrchestrator.run handlers
          (StrategyOrchestrator.execute handlers cache batch).2.1 more).2.countP
          (fun a => decide (a.dedupe_key = k)) = 0 := by
        rw [List.countP_eq_zero]
        intro a ha
        simp only [decide_eq_true_eq]
        intro hak
        exact run_trace_uncached handlers more _ a ha (hak ▸ h2)
      rw [hzero]

theorem run_count_cached
    (handlers : StrategyActionType → Option ActionHandler) (k : String)
    (batches : List (List StrategyAction)) (cache : List String)
    (hk : k ∈ cache) :
    (StrategyOrchestrator.run handlers cache batches).2.countP
      (fun a => decide (a.dedupe_key = k)) = 0 := by
  rw [List.countP_eq_zero]
  intro a ha
  simp only [decide_eq_true_eq]
  intro hak
  exact run_trace_uncached handlers batches cache a ha (hak ▸ hk)

/-- C1: for any decision batch, an action whose dedupe key is already in
the succeeded-key cache yields SKIPPED("duplicate_action") and its handler
is never invoked; a key enters the cache only through a handler returning
SUCCESS; two same-key actions in one batch whose handler answers SUCCESS
yield exactly one SUCCESS followed by one SKIPPED("duplicate_action"); and
across the orchestrator's whole lifetime a handler runs at most once for a
key whose handler always answers SUCCESS. -/
theorem orchestrator_dedupe_exactly_once
    (handlers : StrategyActionType → Option ActionHandler)
    (cache : List String) (batch : List StrategyAction) :
    (∀ p ∈ batch.zip (StrategyOrchestrator.execute handlers cache batch).1,
      p.1.dedupe_key ∈ cache → p.2 = duplicate_result p.1) ∧
    (∀ a ∈ (StrategyOrchestrator.execute handlers cache batch).2.2,
      ¬ a.dedupe_key ∈ cache) ∧
    (∀ k ∈ (StrategyOrchestrator.execute handlers cache batch).2.1,
      k ∈ cache ∨ ∃ a ∈ batch, a.dedupe_key = k ∧
        ∃ r, handler_outcome handlers a = some r ∧
          r.status = ActionStatus.SUCCESS) ∧
    (∀ (a1 a2 : StrategyAction) (r : ActionResult),
      a1.dedupe_key = a2.dedupe_key → ¬ a1.dedupe_key ∈ cache →
      handler_outcome handlers a1 = some r →
      r.status = ActionStatus.SUCCESS →
      (StrategyOrchestrator.execute handlers cache [a1, a2]).1 =
        [r, duplicate_result a2] ∧
      (StrategyOrchestrator.execute handlers cache [a1, a2]).2.2 = [a1]) ∧
    (∀ (k : String) (batches : List (List StrategyAction)),
      (∀ a : StrategyAction, a.dedupe_key = k →
        ∀ r, handler_outcome handlers a = some r →
          r.status = ActionStatus.SUCCESS) →
      (StrategyOrchestrator.run handlers cache batches).2.countP
        (fun a => decide (a.dedupe_key = k)) ≤ 1) := by
  refine ⟨execute_zip_dup handlers batch cache,
    execute_trace_uncached handlers batch cache,
    execute_cache_new_success handlers batch cache,
    ?_, ?_⟩
  · intro a1 a2 r hkey hnc hr hs
    exact execute_pair handlers cache a1 a2 hkey hnc r hr hs
  · intro k batches hsucc
    by_cases hk : k ∈ cache
    · rw [run_count_cached handlers k batches cache hk]
      exact Nat.zero_le 1
    · exact run_count_uncached handlers k hsucc batches cache hk

/-- Witness for C1: the repository's own orchestrator-test scenario — the
same DCA_BUY action twice in one batch against an always-SUCCESS handler —
produces one SUCCESS then one SKIPPED duplicate, with a single handler
invocation; over a two-batch lifetime the handler for that key runs once. -/
theorem orchestrator_dedupe_exactly_once_witness :
    (StrategyOrchestrator.execute c1Handlers [] [c1Action, c1Action]).1 =
      [{ request_id := "req", dedupe_key := "key",
         status := ActionStatus.SUCCESS },
       { request_id := "req", dedupe_key := "key",
         status := ActionStatus.SKIPPED, detail := some "duplicate_action" }] ∧
    (StrategyOrchestrator.execute c1Handlers [] [c1Action, c1Action]).2.2 =
      [c1Action] ∧
    (StrategyOrchestrator.run c1Handlers [] [[c1Action], [c1Action]]).2.countP
      (fun a => decide (a.dedupe_key = "key")) ≤ 1 := by
  have h := orchestrator_dedupe_exactly_once c1Handlers [] [c1Action, c1Action]
  obtain ⟨hres, htr⟩ := h.2.2.2.1 c1Action c1Action
    { request_id := "req", dedupe_key := "key",
      status := ActionStatus.SUCCESS }
    rfl (by simp) (by rfl) rfl
  refine ⟨?_, htr, ?_⟩
  · rw [hres]
    rfl
  · refine (orchestrator_dedupe_exactly_once c1Handlers []
      [c1Action, c1Action]).2.2.2.2 "key" [[c1Action], [c1Action]] ?_
    intro a _ r hr
    rw [handler_outcome] at hr
    rcases hx : c1Handlers a.action_type with _ | hfun
    · rw [hx] at hr
      cases hr
    · rw [hx] at hr
      have hfs : hfun = successHandler := by
        by_cases ht : a.action_type = StrategyActionType.DCA_BUY
        · simp only [c1Handlers, if_pos ht] at hx
          exact (Option.some.inj hx).symm
        · simp only [c1Handlers, if_neg ht] at hx
          cases hx
      subst hfs
      rw [← Option.some.inj hr]
      rfl

/-- C10: a RESERVE_BUY action whose underlying execution is skipped (no
reserve, below minNotional, or a guard rejection) is reported by
`handle_reserve_buy_action` with status SUCCESS, so the orchestrator
records its dedupe key and no action with that key is ever invoked again
for the rest of the process lifetime. -/
theorem reserve_buy_skip_recorded_success
    (envG envE : ReserveBuyEnv) (a : StrategyAction)
    (handlers : StrategyActionType → Option ActionHandler)
    (cache : List String) (batches : List (List StrategyAction))
    (hskip : ((execute_reserve_buy envG).1).skipped = true)
    (hdispatch : ¬ (pyLower (a.payload.mode.getD "global") = "exchange" ∧
      ¬ pyLower (a.payload.exchange.getD "") = ""))
    (hhandler : handlers a.action_type =
      some (fun act => Except.ok (handle_reserve_buy_action envG envE act))) :
    (handle_reserve_buy_action envG envE a).status = ActionStatus.SUCCESS ∧
    a.dedupe_key ∈ (StrategyOrchestrator.execute handlers cache [a]).2.1 ∧
    (∀ b ∈ (StrategyOrchestrator.run handlers
        (StrategyOrchestrator.execute handlers cache [a]).2.1 batches).2,
      ¬ b.dedupe_key = a.dedupe_key) := by
  have hstat : (handle_reserve_buy_action envG envE a).status =
      ActionStatus.SUCCESS := by
    rw [handle_reserve_buy_action]
    dsimp only
    rw [if_neg hdispatch, if_pos (Or.inr hskip)]
  have hcache : a.dedupe_key ∈
      (StrategyOrchestrator.execute handlers cache [a]).2.1 := by
    by_cases hmem : a.dedupe_key ∈ cache
    · exact execute_cache_mono handlers a.dedupe_key [a] cache hmem
    · simp only [StrategyOrchestrator.execute, if_neg hmem, hhandler]
      dsimp only [resolve_handler]
      rw [if_pos hstat]
      exact List.mem_cons_self _ _
  refine ⟨hstat, hcache, ?_⟩
  intro b hb hbk
  exact run_trace_uncached handlers batches _ b hb (hbk ▸ hcache)

/-- Witness for C10: with an empty reserve (`c10Env`), the global
reserve-buy is skipped with reason no_reserve yet reported SUCCESS, its key
enters the cache, and the same action in a later batch is never invoked. -/
theorem reserve_buy_skip_recorded_success_witness :
    (handle_reserve_buy_action c10Env c10Env c10Action).status =
      ActionStatus.SUCCESS ∧
    "key-rb" ∈ (StrategyOrchestrator.execute c10Handlers [] [c10Action]).2.1 ∧
    ¬ c10Action ∈ (StrategyOrchestrator.run c10Handlers
        (StrategyOrchestrator.execute c10Handlers [] [c10Action]).2.1
        [[c10Action]]).2 := by
  have hskip : ((execute_reserve_buy c10Env).1).skipped = true := by
    rw [execute_reserve_buy]
    norm_num [c10Env]
  have h := reserve_buy_skip_recorded_success c10Env c10Env c10Action
    c10Handlers [] [[c10Action]] hskip (by decide) rfl
  exact ⟨h.1, h.2.1, fun hm => h.2.2 c10Action hm rfl⟩
